import Mathlib

/-!
Shallow embedding of `src/udkm1Dsim/xray.py` (class `Xray`).

Modelling conventions:

* numpy float arrays are modelled as `List ℚ` (1-D) and `List (List ℚ)` (2-D,
  row major); exact rational arithmetic stands in for IEEE doubles, so the
  "within floating-point tolerance" clauses of the specification become exact
  equalities.  Rational division by zero is `0` (the claims below never hit it
  under their hypotheses).
* the transcendental primitives `np.pi`, `np.sin`, `np.arcsin` have no exact
  rational representation; they are abstracted into a `Prims` record over which
  every theorem quantifies.  Where a claim genuinely needs the defining
  property of `sin`/`arcsin` (claim C6) it is taken as the hypothesis
  `∀ x, sin (arcsin x) = x`, the identity that holds for the real functions on
  the physically meaningful domain.  `get_polarization_factor` needs the real
  `sqrt`/`cos`, so it is embedded separately over `ℝ`.
* `pint` quantities are modelled as a magnitude together with a unit, a unit
  being a physical dimension plus an exact rational scale to SI base units.
  `Quantity.to(unit)` fails exactly when the dimensions differ;
  `Quantity.to_base_units()` never fails, as in pint.  The SI defining
  constants `h`, `c`, `e` are exact rationals.
* the triad setters (`energy`, `wl`, `k`) are modelled for scalar and 1-D
  inputs (`Arr1`); the matrix setters (`theta`, `qz`) for scalar, 1-D and 2-D
  inputs (`NDArray`), which is the input space the code's `ndmin=1`/`tile`
  handling is written for.
* a Python `IndexError`/`DimensionalityError` escaping a method is modelled by
  the `Outcome.err` constructor, which records the error kind together with
  the object state at raise time (mutations already performed are kept, as in
  Python).
* `make_hash_md5` lives in the absent `helpers` module and is modelled from
  the spec (see its doc string); the sample hash `self.S.get_hash(types=...)`
  is an external collaborator and enters as a string parameter.
-/

/-- Physical dimensions distinguished by the unit system, as far as this
module exercises it. -/
inductive Dim where
  | energy
  | length
  | invLength
  | angle
  | dimensionless
deriving DecidableEq

/-- A unit: a dimension plus the exact scale factor to SI base units. -/
structure UnitT where
  dim : Dim
  scale : ℚ

/-- Planck constant `h` in J·s (exact SI value 6.62607015e-34). -/
def hPlanck : ℚ := 662607015 / 10 ^ 42

/-- Speed of light `c` in m/s (exact SI value). -/
def cLight : ℚ := 299792458

/-- Elementary charge `e` in C (exact SI value 1.602176634e-19); also the
eV → J conversion factor. -/
def eCharge : ℚ := 1602176634 / 10 ^ 28

/-- The unit `eV`. -/
def uEV : UnitT := ⟨Dim.energy, eCharge⟩

/-- The unit `J` (SI base for energy, as far as this module needs). -/
def uJ : UnitT := ⟨Dim.energy, 1⟩

/-- The unit `m`. -/
def uM : UnitT := ⟨Dim.length, 1⟩

/-- The unit `nm`. -/
def uNM : UnitT := ⟨Dim.length, 1 / 10 ^ 9⟩

/-- The unit `1/m`. -/
def uInvM : UnitT := ⟨Dim.invLength, 1⟩

/-- The unit `rad`. -/
def uRad : UnitT := ⟨Dim.angle, 1⟩

/-- A scalar-or-1-D numpy value, the modelled input space of the
`energy`/`wl`/`k` setters. -/
inductive Arr1 where
  | scalar (x : ℚ)
  | one (xs : List ℚ)
deriving DecidableEq

/-- Elementwise map (numpy broadcasting of a scalar function). -/
def Arr1.map (f : ℚ → ℚ) : Arr1 → Arr1
  | .scalar x => .scalar (f x)
  | .one xs => .one (xs.map f)

/-- `np.array(·, ndmin=1)` on scalar-or-1-D data: the result is 1-D. -/
def Arr1.ndmin1 : Arr1 → List ℚ
  | .scalar x => [x]
  | .one xs => xs

/-- A scalar, 1-D or 2-D numpy value, the modelled input space of the
`theta`/`qz` setters and of the optional `strain_map`. -/
inductive NDArray where
  | scalar (x : ℚ)
  | one (xs : List ℚ)
  | two (m : List (List ℚ))
deriving DecidableEq

/-- Elementwise map. -/
def NDArray.map (f : ℚ → ℚ) : NDArray → NDArray
  | .scalar x => .scalar (f x)
  | .one xs => .one (xs.map f)
  | .two m => .two (m.map (List.map f))

/-- `np.ndim`. -/
def NDArray.ndim : NDArray → ℕ
  | .scalar _ => 0
  | .one _ => 1
  | .two _ => 2

/-- `np.size`: total number of elements. -/
def NDArray.size : NDArray → ℕ
  | .scalar _ => 1
  | .one xs => xs.length
  | .two m => (m.map List.length).sum

/-- `ndarray.flatten()` (for 0-D arrays numpy yields the 1-element 1-D
array). -/
def NDArray.flatten : NDArray → List ℚ
  | .scalar x => [x]
  | .one xs => xs
  | .two m => m.flatten

/-- Result of `np.array(·, ndmin=1)` on ≤2-D data: 1-D or 2-D. -/
inductive Arr12 where
  | one (xs : List ℚ)
  | two (m : List (List ℚ))
deriving DecidableEq

/-- `np.array(·, ndmin=1)`. -/
def NDArray.ndmin1 : NDArray → Arr12
  | .scalar x => .one [x]
  | .one xs => .one xs
  | .two m => .two m

/-- The `if ·.ndim < 2: np.tile(·, (n, 1))` step of the `theta`/`qz`
setters: a 1-D row is replicated into `n` identical rows, a 2-D matrix is
kept as is. -/
def Arr12.tileTo (n : ℕ) : Arr12 → List (List ℚ)
  | .one xs => List.replicate n xs
  | .two m => m

/-- A pint quantity with scalar-or-1-D magnitude. -/
structure Quantity1 where
  dim : Dim
  scale : ℚ
  mag : Arr1

/-- `pint.Quantity.to(unit)`: fails (`DimensionalityError`) iff the
dimensions differ, otherwise rescales the magnitude. -/
def Quantity1.toUnit (q : Quantity1) (u : UnitT) : Option Arr1 :=
  if q.dim = u.dim then some (q.mag.map (fun x => x * (q.scale / u.scale))) else none

/-- `pint.Quantity.to_base_units()`: never fails. -/
def Quantity1.toBaseUnits (q : Quantity1) : Arr1 :=
  q.mag.map (fun x => x * q.scale)

/-- A pint quantity with up-to-2-D magnitude. -/
structure QuantityN where
  dim : Dim
  scale : ℚ
  mag : NDArray

/-- `pint.Quantity.to_base_units()` for matrix quantities: never fails. -/
def QuantityN.toBaseUnits (q : QuantityN) : NDArray :=
  q.mag.map (fun x => x * q.scale)

/-- The transcendental primitives used by `update_experiment`
(`np.pi`, `np.sin`, `np.arcsin`), abstracted because they have no exact
rational values.  Theorems quantify over them; where a claim needs the
real-analytic identity `sin (arcsin x) = x` it appears as a hypothesis. -/
structure Prims where
  pi : ℚ
  sin : ℚ → ℚ
  arcsin : ℚ → ℚ

/-- The internal store of an `Xray` instance: the five quantity fields
`_energy` (eV), `_wl` (m), `_k` (1/m), `_theta` (rad, 2-D), `_qz` (1/m, 2-D)
plus the two polarization state keys read by `get_hash`. -/
structure Xray where
  energy : List ℚ
  wl : List ℚ
  k : List ℚ
  theta : List (List ℚ)
  qz : List (List ℚ)
  pol_in_state : ℕ
  pol_out_state : ℕ
deriving DecidableEq

/-- The store after `Xray.__init__`: empty triad arrays, `np.zeros([1,1])`
matrices, incoming polarization `3` (sigma), outgoing `0` (unpolarized). -/
def Xray.init : Xray := ⟨[], [], [], [[0]], [[0]], 3, 0⟩

/-- Kind of Python exception escaping a method of this module. -/
inductive ErrKind where
  | dimensionality
  | index
deriving DecidableEq

/-- Result of a mutating method: normal return with the new store, or an
exception carrying the store at raise time (partial mutations kept). -/
inductive Outcome where
  | ok (s : Xray)
  | err (e : ErrKind) (s : Xray)
deriving DecidableEq

/-- The store held by an outcome. -/
def Outcome.state : Outcome → Xray
  | .ok s => s
  | .err _ s => s

/-- Which quantity was just written (the `caller` string of
`update_experiment`). -/
inductive Caller where
  | energy
  | wl
  | k
  | theta
  | qz
deriving DecidableEq

/-- `np.outer a b` (both arguments 1-D): the matrix of products, one row per
element of `a`. -/
def outer (a b : List ℚ) : List (List ℚ) :=
  a.map (fun x => b.map (fun y => x * y))

/-- Elementwise map over a 2-D array. -/
def mapMat (f : ℚ → ℚ) (m : List (List ℚ)) : List (List ℚ) :=
  m.map (List.map f)

namespace Xray

/-- Lines 156-161 of `update_experiment`: the new `_energy`.
`Q_(x, 'J').to('eV').magnitude` is `x / eCharge`. -/
def updEnergy (P : Prims) (c : Caller) (s : Xray) : List ℚ :=
  if c ≠ Caller.energy then
    if c = Caller.wl then s.wl.map (fun w => hPlanck * cLight / w / eCharge)
    else if c = Caller.k then
      s.k.map (fun x => hPlanck * cLight / (2 * P.pi / x) / eCharge)
    else s.energy
  else s.energy

/-- Lines 162-166: the new `_wl`.  `self.energy.to('J').magnitude` is
`_energy * eCharge` (the getter tags `_energy` with eV). -/
def updWl (P : Prims) (c : Caller) (s : Xray) : List ℚ :=
  if c ≠ Caller.wl then
    if c = Caller.energy then s.energy.map (fun e => hPlanck * cLight / (e * eCharge))
    else if c = Caller.k then s.k.map (fun x => 2 * P.pi / x)
    else s.wl
  else s.wl

/-- Lines 167-171: the new `_k`, computed from the just-updated `_wl`
(`wlNew`). -/
def updK (P : Prims) (c : Caller) (wlNew : List ℚ) (s : Xray) : List ℚ :=
  if c ≠ Caller.k then
    if c = Caller.energy then wlNew.map (fun w => 2 * P.pi / w)
    else if c = Caller.wl then wlNew.map (fun w => 2 * P.pi / w)
    else s.k
  else s.k

/-- The store after the triad part (lines 156-171) of `update_experiment`.
Each branch of the source reads only fields not yet reassigned in the same
call, so simultaneous assignment with `updK` fed the new `_wl` reproduces the
sequential execution. -/
def updTriad (P : Prims) (c : Caller) (s : Xray) : Xray :=
  let w1 := updWl P c s
  { s with energy := updEnergy P c s, wl := w1, k := updK P c w1 s }

/-- Lines 173-174: `self._theta = np.arcsin(np.outer(self._wl, self._qz[0, :])/np.pi/4)`.
Reading row 0 of a zero-row matrix raises `IndexError`. -/
def updTheta (P : Prims) (c : Caller) (s : Xray) : Outcome :=
  if c = Caller.theta then .ok s
  else
    match s.qz.head? with
    | none => .err .index s
    | some q0 =>
        .ok { s with
          theta := mapMat P.arcsin (mapMat (fun x => x / P.pi / 4) (outer s.wl q0)) }

/-- Lines 175-176: `self._qz = np.outer(2*self._k, np.sin(self._theta[0, :]))`. -/
def updQz (P : Prims) (c : Caller) (s : Xray) : Outcome :=
  if c = Caller.qz then .ok s
  else
    match s.theta.head? with
    | none => .err .index s
    | some t0 =>
        .ok { s with qz := outer (s.k.map (fun x => 2 * x)) (t0.map P.sin) }

/-- `Xray.update_experiment(caller)` (lines 136-176): the triad recomputation
followed by the theta and qz recomputations, an `IndexError` aborting the
remaining steps. -/
def update_experiment (P : Prims) (c : Caller) (s : Xray) : Outcome :=
  match updTheta P c (updTriad P c s) with
  | .err e s1 => .err e s1
  | .ok s2 => updQz P c s2

/-- The `energy` setter (lines 183-186): convert to eV (may fail), store with
`ndmin=1`, propagate. -/
def setEnergy (P : Prims) (s : Xray) (q : Quantity1) : Outcome :=
  match q.toUnit uEV with
  | none => .err .dimensionality s
  | some m => update_experiment P Caller.energy { s with energy := m.ndmin1 }

/-- The `wl` setter (lines 193-196): `to_base_units()` (never fails), store,
propagate. -/
def setWl (P : Prims) (s : Xray) (q : Quantity1) : Outcome :=
  update_experiment P Caller.wl { s with wl := q.toBaseUnits.ndmin1 }

/-- The `k` setter (lines 203-206). -/
def setK (P : Prims) (s : Xray) (q : Quantity1) : Outcome :=
  update_experiment P Caller.k { s with k := q.toBaseUnits.ndmin1 }

/-- The `theta` setter (lines 213-218): `to_base_units()`, `ndmin=1`, tile
1-D input to one row per current energy sample, propagate. -/
def setTheta (P : Prims) (s : Xray) (q : QuantityN) : Outcome :=
  update_experiment P Caller.theta
    { s with theta := (q.toBaseUnits.ndmin1).tileTo s.energy.length }

/-- The `qz` setter (lines 225-230). -/
def setQz (P : Prims) (s : Xray) (q : QuantityN) : Outcome :=
  update_experiment P Caller.qz
    { s with qz := (q.toBaseUnits.ndmin1).tileTo s.energy.length }

/-- The `wl` getter (lines 188-191): `Q_(self._wl, u.m).to('nm')`. -/
def wlGet (s : Xray) : Quantity1 :=
  ⟨Dim.length, uNM.scale, Arr1.one (s.wl.map (fun w => w * (uM.scale / uNM.scale)))⟩

end Xray

/-- A single setter invocation with its argument, for claims quantifying over
all five setters. -/
inductive SetterCall where
  | energy (q : Quantity1)
  | wl (q : Quantity1)
  | k (q : Quantity1)
  | theta (q : QuantityN)
  | qz (q : QuantityN)

/-- Dispatch a setter invocation. -/
def Xray.applySetter (P : Prims) (s : Xray) : SetterCall → Outcome
  | .energy q => Xray.setEnergy P s q
  | .wl q => Xray.setWl P s q
  | .k q => Xray.setK P s q
  | .theta q => Xray.setTheta P s q
  | .qz q => Xray.setQz P s q

/-- The unit conversion performed by this setter fails on its argument.  In
the source only the energy setter converts with `.to('eV')`, which fails on a
non-energy dimension; the other four setters convert with
`to_base_units()`, which never fails. -/
def SetterCall.convFails : SetterCall → Prop
  | .energy q => q.dim ≠ Dim.energy
  | _ => False

/-- The matrix-setter argument of this invocation (if any) is at most 1-D. -/
def SetterCall.oneD : SetterCall → Prop
  | .theta q => q.mag.ndim ≤ 1
  | .qz q => q.mag.ndim ≤ 1
  | _ => True

/-- An entry of the parameter list hashed by `get_hash`. -/
inductive HashItem where
  | nat (n : ℕ)
  | arr (xs : List ℚ)
  | mat (m : List (List ℚ))
  | nd (a : NDArray)
deriving DecidableEq

/-- Render a rational exactly. -/
def qStr (q : ℚ) : String :=
  toString q.num ++ "r" ++ toString q.den

/-- Render a 1-D array. -/
def listStr (xs : List ℚ) : String :=
  String.intercalate "," (xs.map qStr)

/-- Render a 2-D array. -/
def matStr (m : List (List ℚ)) : String :=
  String.intercalate ";" (m.map listStr)

/-- Render one parameter. -/
def HashItem.str : HashItem → String
  | .nat n => "n" ++ toString n
  | .arr xs => "a" ++ listStr xs
  | .mat m => "m" ++ matStr m
  | .nd (.scalar x) => "s" ++ qStr x
  | .nd (.one xs) => "o" ++ listStr xs
  | .nd (.two m) => "t" ++ matStr m

/-- Modelled from the spec: `make_hash_md5` is defined in the repository's
`helpers` module, which is not under `src/`; the spec requires a
deterministic content digest of the ordered parameter list, insensitive to
anything except the content and order of the list.  An exact injective
rendering of the list realises that contract. -/
def make_hash_md5 (l : List HashItem) : String :=
  String.intercalate "|" (l.map HashItem.str)

/-- `Xray.get_hash(strain_vectors, **kwargs)` (lines 101-118).  `sHash`
stands for the external `self.S.get_hash(types='xray')`; `strain_map` is the
optional keyword; a strain map with more than `1e6` elements is truncated to
the first 1,000,000 elements of its flattening before inclusion. -/
def Xray.get_hash (sHash : String) (s : Xray) (strain_vectors : List (List ℚ))
    (strain_map : Option NDArray) : String :=
  let param : List HashItem :=
    [HashItem.nat s.pol_in_state, HashItem.nat s.pol_out_state,
      HashItem.mat s.qz, HashItem.arr s.energy, HashItem.mat strain_vectors]
  let param2 : List HashItem :=
    match strain_map with
    | none => param
    | some sm =>
        param ++ [HashItem.nd
          (if 1000000 < sm.size then NDArray.one (sm.flatten.take 1000000) else sm)]
  sHash ++ "_" ++ make_hash_md5 param2

/-- `Xray.get_polarization_factor(theta)` (lines 120-134), over the reals:
`np.sqrt((1-self.pol_in) + self.pol_in*np.cos(2*theta)**2)`.  `pol_in` is the
stored incoming polarization factor; the method performs no assignment, so
its embedding returns a value and no new store. -/
noncomputable def Xray.get_polarization_factor (pol_in theta : ℝ) : ℝ :=
  Real.sqrt ((1 - pol_in) + pol_in * Real.cos (2 * theta) ^ 2)

/-- State well-formedness assumed by the idempotence claim: the triad arrays
are nonempty with nonzero leading samples (`List.headI [] = 0`, so each
conjunct also forces nonemptiness). -/
def Xray.WellFormed (s : Xray) : Prop :=
  s.energy.headI ≠ 0 ∧ s.wl.headI ≠ 0 ∧ s.k.headI ≠ 0

/-- Concrete primitives for witnesses and counterexamples: `pi := 1` and
`sin`/`arcsin` both the identity, which satisfies `sin ∘ arcsin = id`. -/
def Pid : Prims := ⟨1, id, id⟩

/-- The quantity 1 m. -/
def qMeter : Quantity1 := ⟨Dim.length, 1, Arr1.scalar 1⟩

/-- The quantity 1 eV as a scalar quantity (fed to the wavelength setter in
the C4 counterexample). -/
def qEV1 : Quantity1 := ⟨Dim.energy, eCharge, Arr1.scalar 1⟩

/-- The 1-D angle quantity [0] rad. -/
def qRow : QuantityN := ⟨Dim.angle, 1, NDArray.one [0]⟩

/-- The 2-row angle quantity [[0],[0]] rad. -/
def qTwoRows : QuantityN := ⟨Dim.angle, 1, NDArray.two [[0], [0]]⟩

/-- The 2-row momentum-transfer quantity [[0],[0]] 1/m. -/
def qTwoRowsQz : QuantityN := ⟨Dim.invLength, 1, NDArray.two [[0], [0]]⟩

/-- The store reached from `Xray.init` by setting the wavelength to 1 m
(with `Pid` primitives). -/
def s1cex : Xray := ⟨[hPlanck * cLight / eCharge], [1], [2], [[0]], [[0]], 3, 0⟩

/-- The store reached from `s1cex` by feeding `qTwoRows` to the theta
setter: a 2×1 theta matrix is stored although only one energy sample exists,
while the recomputed qz matrix is 1×1. -/
def s2cex : Xray := ⟨[hPlanck * cLight / eCharge], [1], [2], [[0], [0]], [[0]], 3, 0⟩

/-- The store reached from `s1cex` by feeding `qTwoRowsQz` to the qz
setter. -/
def s3cex : Xray := ⟨[hPlanck * cLight / eCharge], [1], [2], [[0]], [[0], [0]], 3, 0⟩

/-- The store reached from `Xray.init` by feeding the energy quantity
`qEV1` to the wavelength setter: no error is raised and `eCharge` (the eV
magnitude in joules) is stored as a wavelength in meters. -/
def s4cex : Xray :=
  ⟨[hPlanck * cLight / eCharge / eCharge], [eCharge], [2 / eCharge], [[0]], [[0]], 3, 0⟩

/-- The store produced by the energy setter on input `E` (in eV) from a store
`s` whose qz matrix has first row `q0`: the spelled-out result of
`update_experiment('energy')`, used by the round-trip claim C3. -/
def energyStep (P : Prims) (s : Xray) (E : ℚ) (q0 : List ℚ) : Xray :=
  { energy := [E]
    wl := [hPlanck * cLight / (E * eCharge)]
    k := [2 * P.pi / (hPlanck * cLight / (E * eCharge))]
    theta := mapMat P.arcsin (mapMat (fun v => v / P.pi / 4)
      (outer [hPlanck * cLight / (E * eCharge)] q0))
    qz := outer ([2 * P.pi / (hPlanck * cLight / (E * eCharge))].map (fun v => 2 * v))
      ((q0.map (fun y =>
        P.arcsin (hPlanck * cLight / (E * eCharge) * y / P.pi / 4))).map P.sin)
    pol_in_state := s.pol_in_state
    pol_out_state := s.pol_out_state }

/-! ## Structural lemmas about the embedding -/

lemma updTriad_theta (P : Prims) (c : Caller) (s : Xray) :
    (Xray.updTriad P c s).theta = s.theta := rfl

lemma updTriad_qz (P : Prims) (c : Caller) (s : Xray) :
    (Xray.updTriad P c s).qz = s.qz := rfl

lemma outer_cons (x : ℚ) (a b : List ℚ) :
    outer (x :: a) b = b.map (fun y => x * y) :: outer a b := rfl

lemma outer_nil (b : List ℚ) : outer [] b = [] := rfl

lemma length_outer (a b : List ℚ) : (outer a b).length = a.length := by
  simp [outer]

lemma map_length_outer (a b : List ℚ) :
    (outer a b).map List.length = List.replicate a.length b.length := by
  induction a with
  | nil => rfl
  | cons x a ih =>
      simp only [outer_cons, List.map_cons, List.length_map, List.length_cons,
        List.replicate_succ, ih]

lemma mapMat_cons (f : ℚ → ℚ) (r : List ℚ) (m : List (List ℚ)) :
    mapMat f (r :: m) = r.map f :: mapMat f m := rfl

lemma map_length_mapMat (f : ℚ → ℚ) (m : List (List ℚ)) :
    (mapMat f m).map List.length = m.map List.length := by
  simp [mapMat, List.map_map, Function.comp_def]

lemma updTheta_skip (P : Prims) (s : Xray) :
    Xray.updTheta P Caller.theta s = .ok s := rfl

lemma updQz_skip (P : Prims) (s : Xray) :
    Xray.updQz P Caller.qz s = .ok s := rfl

lemma updTheta_some (P : Prims) (c : Caller) (s : Xray) (q0 : List ℚ)
    (hc : c ≠ Caller.theta) (hq : s.qz.head? = some q0) :
    Xray.updTheta P c s = .ok { s with
      theta := mapMat P.arcsin (mapMat (fun x => x / P.pi / 4) (outer s.wl q0)) } := by
  unfold Xray.updTheta
  rw [if_neg hc, hq]

lemma updTheta_none (P : Prims) (c : Caller) (s : Xray)
    (hc : c ≠ Caller.theta) (hq : s.qz.head? = none) :
    Xray.updTheta P c s = .err .index s := by
  unfold Xray.updTheta
  rw [if_neg hc, hq]

lemma updQz_some (P : Prims) (c : Caller) (s : Xray) (t0 : List ℚ)
    (hc : c ≠ Caller.qz) (ht : s.theta.head? = some t0) :
    Xray.updQz P c s = .ok { s with
      qz := outer (s.k.map (fun x => 2 * x)) (t0.map P.sin) } := by
  unfold Xray.updQz
  rw [if_neg hc, ht]

lemma updQz_none (P : Prims) (c : Caller) (s : Xray)
    (hc : c ≠ Caller.qz) (ht : s.theta.head? = none) :
    Xray.updQz P c s = .err .index s := by
  unfold Xray.updQz
  rw [if_neg hc, ht]

lemma update_eq_of_updTheta_err (P : Prims) (c : Caller) (s : Xray) (e : ErrKind)
    (s1 : Xray) (h : Xray.updTheta P c (Xray.updTriad P c s) = .err e s1) :
    Xray.update_experiment P c s = .err e s1 := by
  unfold Xray.update_experiment
  rw [h]

lemma update_eq_of_updTheta_ok (P : Prims) (c : Caller) (s s2 : Xray)
    (h : Xray.updTheta P c (Xray.updTriad P c s) = .ok s2) :
    Xray.update_experiment P c s = Xray.updQz P c s2 := by
  unfold Xray.update_experiment
  rw [h]

lemma update_theta_cons (P : Prims) (s : Xray) (t0 : List ℚ) (ts : List (List ℚ))
    (ht : s.theta = t0 :: ts) :
    Xray.update_experiment P Caller.theta s =
      .ok { s with qz := outer (s.k.map (fun x => 2 * x)) (t0.map P.sin) } := by
  rw [update_eq_of_updTheta_ok P _ s s (updTheta_skip P s)]
  exact updQz_some P _ s t0 (by decide) (by rw [ht]; rfl)

lemma update_theta_nil (P : Prims) (s : Xray) (ht : s.theta = []) :
    Xray.update_experiment P Caller.theta s = .err .index s := by
  rw [update_eq_of_updTheta_ok P _ s s (updTheta_skip P s)]
  exact updQz_none P _ s (by decide) (by rw [ht]; rfl)

lemma update_qz_cons (P : Prims) (s : Xray) (q0 : List ℚ) (qtl : List (List ℚ))
    (hq : s.qz = q0 :: qtl) :
    Xray.update_experiment P Caller.qz s =
      .ok { s with
        theta := mapMat P.arcsin (mapMat (fun x => x / P.pi / 4) (outer s.wl q0)) } := by
  rw [update_eq_of_updTheta_ok P _ s _
    (updTheta_some P _ _ q0 (by decide) (by show s.qz.head? = some q0; rw [hq]; rfl))]
  exact updQz_skip P _

lemma update_qz_nil (P : Prims) (s : Xray) (hq : s.qz = []) :
    Xray.update_experiment P Caller.qz s = .err .index s := by
  exact update_eq_of_updTheta_err P _ s .index s
    (updTheta_none P _ _ (by decide) (by show s.qz.head? = none; rw [hq]; rfl))

lemma update_ewk_cons (P : Prims) (c : Caller) (s : Xray)
    (hc1 : c ≠ Caller.theta) (hc2 : c ≠ Caller.qz)
    (q0 : List ℚ) (qtl : List (List ℚ)) (hq : s.qz = q0 :: qtl)
    (w0 : ℚ) (ws : List ℚ) (hw : Xray.updWl P c s = w0 :: ws) :
    Xray.update_experiment P c s =
      .ok { energy := Xray.updEnergy P c s,
            wl := Xray.updWl P c s,
            k := Xray.updK P c (Xray.updWl P c s) s,
            theta := mapMat P.arcsin
              (mapMat (fun x => x / P.pi / 4) (outer (Xray.updWl P c s) q0)),
            qz := outer ((Xray.updK P c (Xray.updWl P c s) s).map (fun x => 2 * x))
              ((q0.map (fun y => P.arcsin (w0 * y / P.pi / 4))).map P.sin),
            pol_in_state := s.pol_in_state,
            pol_out_state := s.pol_out_state } := by
  rw [update_eq_of_updTheta_ok P c s _
    (updTheta_some P c _ q0 hc1 (by show s.qz.head? = some q0; rw [hq]; rfl))]
  have hth : (mapMat P.arcsin (mapMat (fun x => x / P.pi / 4)

      (outer (Xray.updWl P c s) q0))).head?
      = some (q0.map (fun y => P.arcsin (w0 * y / P.pi / 4))) := by
    rw [hw]
    simp [outer_cons, mapMat_cons, List.map_map, Function.comp_def]
  rw [updQz_some P c _ _ hc2 hth]
  rfl

lemma update_ewk_qznil (P : Prims) (c : Caller) (s : Xray)
    (hc1 : c ≠ Caller.theta) (hq : s.qz = []) :
    Xray.update_experiment P c s = .err .index (Xray.updTriad P c s) := by
  exact update_eq_of_updTheta_err P c s .index _
    (updTheta_none P c _ hc1 (by show s.qz.head? = none; rw [hq]; rfl))

lemma update_ewk_wlnil (P : Prims) (c : Caller) (s : Xray)
    (hc1 : c ≠ Caller.theta) (hc2 : c ≠ Caller.qz)
    (q0 : List ℚ) (qtl : List (List ℚ)) (hq : s.qz = q0 :: qtl)
    (hw : Xray.updWl P c s = []) :
    Xray.update_experiment P c s =
      .err .index { Xray.updTriad P c s with
        theta := mapMat P.arcsin
          (mapMat (fun x => x / P.pi / 4) (outer (Xray.updWl P c s) q0)) } := by
  rw [update_eq_of_updTheta_ok P c s _
    (updTheta_some P c _ q0 hc1 (by show s.qz.head? = some q0; rw [hq]; rfl))]
  have hth : (mapMat P.arcsin (mapMat (fun x => x / P.pi / 4)
      (outer (Xray.updWl P c s) q0))).head? = none := by
    rw [hw]; rfl
  rw [updQz_none P c _ hc2 hth]
  rfl

lemma update_ok_inv (P : Prims) (c : Caller) (s x : Xray)
    (hc1 : c ≠ Caller.theta) (hc2 : c ≠ Caller.qz)
    (h : Xray.update_experiment P c s = .ok x) :
    ∃ q0 qtl w0 ws, s.qz = q0 :: qtl ∧ Xray.updWl P c s = w0 :: ws ∧
      x = { energy := Xray.updEnergy P c s,
            wl := Xray.updWl P c s,
            k := Xray.updK P c (Xray.updWl P c s) s,
            theta := mapMat P.arcsin
              (mapMat (fun x => x / P.pi / 4) (outer (Xray.updWl P c s) q0)),
            qz := outer ((Xray.updK P c (Xray.updWl P c s) s).map (fun x => 2 * x))
              ((q0.map (fun y => P.arcsin (w0 * y / P.pi / 4))).map P.sin),
            pol_in_state := s.pol_in_state,
            pol_out_state := s.pol_out_state } := by
  rcases hq : s.qz with _ | ⟨q0, qtl⟩
  · rw [update_ewk_qznil P c s hc1 hq] at h
    cases h
  · rcases hw : Xray.updWl P c s with _ | ⟨w0, ws⟩
    · rw [update_ewk_wlnil P c s hc1 hc2 q0 qtl hq hw] at h
      cases h
    · rw [update_ewk_cons P c s hc1 hc2 q0 qtl hq w0 ws hw] at h
      injection h with h
      rw [hw] at h
      exact ⟨q0, qtl, w0, ws, rfl, rfl, h.symm⟩

lemma update_theta_inv (P : Prims) (s x : Xray)
    (h : Xray.update_experiment P Caller.theta s = .ok x) :
    ∃ t0 ts, s.theta = t0 :: ts ∧
      x = { s with qz := outer (s.k.map (fun y => 2 * y)) (t0.map P.sin) } := by
  rcases ht : s.theta with _ | ⟨t0, ts⟩
  · rw [update_theta_nil P s ht] at h
    cases h
  · rw [update_theta_cons P s t0 ts ht] at h
    injection h with h
    rw [ht] at h
    exact ⟨t0, ts, rfl, h.symm⟩

lemma update_qz_inv (P : Prims) (s x : Xray)
    (h : Xray.update_experiment P Caller.qz s = .ok x) :
    ∃ q0 qtl, s.qz = q0 :: qtl ∧
      x = { s with
        theta := mapMat P.arcsin (mapMat (fun y => y / P.pi / 4) (outer s.wl q0)) } := by
  rcases hq : s.qz with _ | ⟨q0, qtl⟩
  · rw [update_qz_nil P s hq] at h
    cases h
  · rw [update_qz_cons P s q0 qtl hq] at h
    injection h with h
    rw [hq] at h
    exact ⟨q0, qtl, rfl, h.symm⟩

lemma qz_row0_roundtrip (P : Prims) (hlaw : ∀ y, P.sin (P.arcsin y) = y)
    (hpi : P.pi ≠ 0) (w0 k0 : ℚ) (hwk : k0 * w0 = 2 * P.pi) (q0 : List ℚ) :
    ((q0.map (fun y => P.arcsin (w0 * y / P.pi / 4))).map P.sin).map
      (fun y => 2 * k0 * y) = q0 := by
  have hpt : ∀ y : ℚ, 2 * k0 * (w0 * y / P.pi / 4) = y := by
    intro y
    field_simp
    linear_combination 2 * y * hwk
  simp only [List.map_map, Function.comp_def, hlaw]
  calc (q0.map fun y => 2 * k0 * (w0 * y / P.pi / 4)) = q0.map id := by
        exact List.map_congr_left fun y _ => hpt y
    _ = q0 := List.map_id q0

lemma map_id_of_eq (f : ℚ → ℚ) (hf : ∀ w, f w = w) (l : List ℚ) : l.map f = l := by
  calc l.map f = l.map id := List.map_congr_left fun w _ => hf w
    _ = l := List.map_id l

lemma setWl_init_eval : Xray.setWl Pid Xray.init qMeter = .ok s1cex := by
  simp [Xray.setWl, Xray.update_experiment, Xray.updTriad, Xray.updEnergy, Xray.updWl,
    Xray.updK, Xray.updTheta, Xray.updQz, Quantity1.toBaseUnits, Arr1.map, Arr1.ndmin1,
    Xray.init, Pid, qMeter, s1cex, outer, mapMat]

lemma update_theta_s1cex : Xray.update_experiment Pid Caller.theta s1cex = .ok s1cex := by
  simp [Xray.update_experiment, Xray.updTriad, Xray.updEnergy, Xray.updWl,
    Xray.updK, Xray.updTheta, Xray.updQz, Pid, s1cex, outer, mapMat]

lemma update_qz_s1cex : Xray.update_experiment Pid Caller.qz s1cex = .ok s1cex := by
  simp [Xray.update_experiment, Xray.updTriad, Xray.updEnergy, Xray.updWl,
    Xray.updK, Xray.updTheta, Xray.updQz, Pid, s1cex, outer, mapMat]

/-! ## Claims -/

/-- C7: for every caller equal to 'theta' or 'qz', `update_experiment` leaves
the stored energy, wavelength and wavenumber arrays unchanged (only the theta
and/or qz matrices may be rewritten), whatever the outcome. -/
theorem claim7_angle_callers_frame (P : Prims) (s : Xray) :
    ((Xray.update_experiment P Caller.theta s).state.energy = s.energy ∧
      (Xray.update_experiment P Caller.theta s).state.wl = s.wl ∧
      (Xray.update_experiment P Caller.theta s).state.k = s.k) ∧
    ((Xray.update_experiment P Caller.qz s).state.energy = s.energy ∧
      (Xray.update_experiment P Caller.qz s).state.wl = s.wl ∧
      (Xray.update_experiment P Caller.qz s).state.k = s.k) := by
  constructor
  · rcases ht : s.theta with _ | ⟨t0, ts⟩
    · rw [update_theta_nil P s ht]
      exact ⟨rfl, rfl, rfl⟩
    · rw [update_theta_cons P s t0 ts ht]
      exact ⟨rfl, rfl, rfl⟩
  · rcases hq : s.qz with _ | ⟨q0, qtl⟩
    · rw [update_qz_nil P s hq]
      exact ⟨rfl, rfl, rfl⟩
    · rw [update_qz_cons P s q0 qtl hq]
      exact ⟨rfl, rfl, rfl⟩

/-- C9: `get_polarization_factor θ` returns
`sqrt((1 − p) + p·cos²(2θ))` for the stored incoming polarization factor `p`
(and, being a pure function in the embedding, mutates no stored field); in
particular with `p = 1` at `θ = 0` it returns 1 and with `p = 0.5` at
`θ = π/4` it returns `sqrt(0.5)`. -/
theorem claim9_polarization_factor :
    (∀ pol_in th : ℝ, Xray.get_polarization_factor pol_in th
        = Real.sqrt ((1 - pol_in) + pol_in * Real.cos (2 * th) ^ 2)) ∧
    Xray.get_polarization_factor 1 0 = 1 ∧
    Xray.get_polarization_factor (1 / 2) (Real.pi / 4) = Real.sqrt (1 / 2) := by
  refine ⟨fun p th => rfl, ?_, ?_⟩
  · simp only [Xray.get_polarization_factor]
    norm_num [Real.cos_zero, Real.sqrt_one]
  · simp only [Xray.get_polarization_factor]
    rw [show (2 : ℝ) * (Real.pi / 4) = Real.pi / 2 by ring, Real.cos_pi_div_two]
    norm_num

/-- C5: in `get_hash`, a strain map with more than one million elements
contributes only the first 1,000,000 elements of its flattening — it yields
the same hash string as supplying that truncation directly — while a strain
map of at most one million elements is included unmodified. -/
theorem claim5_strain_map_truncation :
    (∀ (sHash : String) (s : Xray) (sv : List (List ℚ)) (sm : NDArray),
        1000000 < sm.size →
        Xray.get_hash sHash s sv (some sm) =
          Xray.get_hash sHash s sv (some (NDArray.one (sm.flatten.take 1000000)))) ∧
    (∀ (sHash : String) (s : Xray) (sv : List (List ℚ)) (sm : NDArray),
        sm.size ≤ 1000000 →
        Xray.get_hash sHash s sv (some sm) =
          sHash ++ "_" ++ make_hash_md5
            [HashItem.nat s.pol_in_state, HashItem.nat s.pol_out_state,
              HashItem.mat s.qz, HashItem.arr s.energy, HashItem.mat sv,
              HashItem.nd sm]) := by
  have hsize : ∀ sm : NDArray, sm.flatten.length = sm.size := by
    intro sm
    cases sm <;> simp [NDArray.flatten, NDArray.size]
  constructor
  · intro sHash s sv sm h
    have h2 : ¬ 1000000 < (NDArray.one (sm.flatten.take 1000000)).size := by
      show ¬ 1000000 < (sm.flatten.take 1000000).length
      simp only [List.length_take, not_lt]
      exact min_le_left _ _
    simp only [Xray.get_hash]
    rw [if_pos h, if_neg h2]
  · intro sHash s sv sm h
    simp only [Xray.get_hash]
    rw [if_neg (not_lt.mpr h)]
    rfl

/-- C5 witness: a 2,000,000-element strain map is hashed like its first
1,000,000 elements. -/
theorem claim5_witness :
    1000000 < (NDArray.one (List.replicate 2000000 (0 : ℚ))).size ∧
    Xray.get_hash "S" Xray.init [] (some (NDArray.one (List.replicate 2000000 (0 : ℚ)))) =
      Xray.get_hash "S" Xray.init []
        (some (NDArray.one
          ((NDArray.one (List.replicate 2000000 (0 : ℚ))).flatten.take 1000000))) := by
  have h : 1000000 < (NDArray.one (List.replicate 2000000 (0 : ℚ))).size := by
    show 1000000 < (List.replicate 2000000 (0 : ℚ)).length
    rw [List.length_replicate]
    norm_num
  exact ⟨h, claim5_strain_map_truncation.1 "S" Xray.init [] _ h⟩

/-- C10: if no energy sample is stored, a 1-D theta (resp. qz) write tiles
the input into a zero-row matrix, and the propagation step then fails with an
index error while reading row 0, leaving the just-written field already
mutated to the zero-row matrix and everything else unchanged. -/
theorem claim10_empty_energy_index_error (P : Prims) (s : Xray) (q : QuantityN)
    (xs : List ℚ) (hmag : q.mag = NDArray.one xs) (hE : s.energy = []) :
    Xray.setTheta P s q = .err .index { s with theta := [] } ∧
    Xray.setQz P s q = .err .index { s with qz := [] } := by
  have htile : ((q.toBaseUnits).ndmin1).tileTo s.energy.length = [] := by
    simp [QuantityN.toBaseUnits, hmag, NDArray.map, NDArray.ndmin1, Arr12.tileTo, hE]
  constructor
  · unfold Xray.setTheta
    rw [htile]
    exact update_theta_nil P _ rfl
  · unfold Xray.setQz
    rw [htile]
    exact update_qz_nil P _ rfl

/-- C10 witness: at the freshly initialised store (empty energy array), the
1-D theta/qz write `[0] rad` fails with an index error and the written field
is left as the zero-row matrix. -/
theorem claim10_witness :
    qRow.mag = NDArray.one [0] ∧ Xray.init.energy = [] ∧
    Xray.setTheta Pid Xray.init qRow = .err .index { Xray.init with theta := [] } ∧
    Xray.setQz Pid Xray.init qRow = .err .index { Xray.init with qz := [] } :=
  ⟨rfl, rfl, (claim10_empty_energy_index_error Pid Xray.init qRow [0] rfl rfl).1,
    (claim10_empty_energy_index_error Pid Xray.init qRow [0] rfl rfl).2⟩

lemma updTheta_err_kind (P : Prims) (c : Caller) (s : Xray) (e : ErrKind) (s' : Xray)
    (h : Xray.updTheta P c s = .err e s') : e = .index := by
  unfold Xray.updTheta at h
  split at h
  · cases h
  · split at h
    · cases h
      rfl
    · cases h

lemma updQz_err_kind (P : Prims) (c : Caller) (s : Xray) (e : ErrKind) (s' : Xray)
    (h : Xray.updQz P c s = .err e s') : e = .index := by
  unfold Xray.updQz at h
  split at h
  · cases h
  · split at h
    · cases h
      rfl
    · cases h

lemma update_err_kind (P : Prims) (c : Caller) (s : Xray) (e : ErrKind) (s' : Xray)
    (h : Xray.update_experiment P c s = .err e s') : e = .index := by
  unfold Xray.update_experiment at h
  cases hth : Xray.updTheta P c (Xray.updTriad P c s) with
  | err e1 s1 =>
      rw [hth] at h
      cases h
      exact updTheta_err_kind _ _ _ _ _ hth
  | ok s2 =>
      rw [hth] at h
      exact updQz_err_kind _ _ _ _ _ h

/-- C4 (amended): in the code only the energy setter performs a unit
conversion that can fail (`.to('eV')`): on a value whose dimension is not
energy it signals the conversion error with the store left exactly as before
the call.  The wl/k/theta/qz setters convert with `to_base_units()`, which
never fails, so they never signal a conversion error (the only error they can
propagate is the index error of the propagation step). -/
theorem claim4_amended (P : Prims) (s : Xray) (q : Quantity1) (qn : QuantityN) :
    (q.dim ≠ Dim.energy → Xray.setEnergy P s q = .err .dimensionality s) ∧
    (∀ e s', Xray.setWl P s q = .err e s' → e = .index) ∧
    (∀ e s', Xray.setK P s q = .err e s' → e = .index) ∧
    (∀ e s', Xray.setTheta P s qn = .err e s' → e = .index) ∧
    (∀ e s', Xray.setQz P s qn = .err e s' → e = .index) := by
  refine ⟨?_, ?_, ?_, ?_, ?_⟩
  · intro hd
    unfold Xray.setEnergy Quantity1.toUnit
    rw [if_neg (by simpa [uEV] using hd)]
  · intro e s' h
    unfold Xray.setWl at h
    exact update_err_kind _ _ _ _ _ h
  · intro e s' h
    unfold Xray.setK at h
    exact update_err_kind _ _ _ _ _ h
  · intro e s' h
    unfold Xray.setTheta at h
    exact update_err_kind _ _ _ _ _ h
  · intro e s' h
    unfold Xray.setQz at h
    exact update_err_kind _ _ _ _ _ h

/-- C4 witness: the energy setter given a 1 m quantity (dimension length)
signals the conversion error and leaves the store untouched. -/
theorem claim4_witness :
    qMeter.dim ≠ Dim.energy ∧
    Xray.setEnergy Pid Xray.init qMeter = .err .dimensionality Xray.init := by
  have hd : qMeter.dim ≠ Dim.energy := by decide
  exact ⟨hd, (claim4_amended Pid Xray.init qMeter qRow).1 hd⟩

/-- C4 counterexample: the claim "for every setter, a value not convertible
to the expected dimension makes the error propagate and leaves the store
unmodified" is false: the wavelength setter fed the 1 eV quantity `qEV1`
(dimension energy, not length) raises no error and rewrites the store. -/
theorem claim4_counterexample :
    qEV1.dim ≠ Dim.length ∧
    Xray.setWl Pid Xray.init qEV1 = .ok s4cex ∧
    s4cex.wl ≠ Xray.init.wl := by
  refine ⟨by decide, ?_, by simp [s4cex, Xray.init]⟩
  simp [Xray.setWl, Xray.update_experiment, Xray.updTriad, Xray.updEnergy, Xray.updWl,
    Xray.updK, Xray.updTheta, Xray.updQz, Quantity1.toBaseUnits, Arr1.map, Arr1.ndmin1,
    Xray.init, Pid, qEV1, s4cex, outer, mapMat]

lemma theta_head (P : Prims) (w0 : ℚ) (ws q0 : List ℚ) :
    (mapMat P.arcsin (mapMat (fun x => x / P.pi / 4) (outer (w0 :: ws) q0))).head?
      = some (q0.map (fun y => P.arcsin (w0 * y / P.pi / 4))) := by
  simp [outer_cons, mapMat_cons, List.map_map, Function.comp_def]

/-- C2: whenever `update_experiment(caller)` returns normally, for caller not
'theta' the stored theta matrix has been recomputed as the elementwise arcsin
of the outer product of the (possibly just-updated) wavelength array with row
0 of the previously stored qz matrix, divided by π and by 4; and for caller
not 'qz' the stored qz matrix has been recomputed as the outer product of 2
times the (possibly just-updated) wavenumber array with the elementwise sine
of row 0 of the stored theta matrix. -/
theorem claim2_recompute_formulas (P : Prims) (c : Caller) (s x : Xray)
    (h : Xray.update_experiment P c s = .ok x) :
    (c ≠ Caller.theta → ∃ q0, s.qz.head? = some q0 ∧
      x.theta = mapMat P.arcsin (mapMat (fun v => v / P.pi / 4) (outer x.wl q0))) ∧
    (c ≠ Caller.qz → ∃ t0, x.theta.head? = some t0 ∧
      x.qz = outer (x.k.map (fun v => 2 * v)) (t0.map P.sin)) := by
  cases c with
  | theta =>
      obtain ⟨t0, ts, ht, hx⟩ := update_theta_inv P s x h
      constructor
      · intro hc
        exact absurd rfl hc
      · intro _
        refine ⟨t0, ?_, ?_⟩
        · rw [hx]
          show s.theta.head? = some t0
          rw [ht]
          rfl
        · rw [hx]
  | qz =>
      obtain ⟨q0, qtl, hq, hx⟩ := update_qz_inv P s x h
      constructor
      · intro _
        refine ⟨q0, ?_, ?_⟩
        · rw [hq]
          rfl
        · rw [hx]
      · intro hc
        exact absurd rfl hc
  | energy =>
      obtain ⟨q0, qtl, w0, ws, hq, hw, hx⟩ :=
        update_ok_inv P Caller.energy s x (by decide) (by decide) h
      constructor
      · intro _
        refine ⟨q0, by rw [hq]; rfl, ?_⟩
        rw [hx]
      · intro _
        refine ⟨q0.map (fun y => P.arcsin (w0 * y / P.pi / 4)), ?_, ?_⟩
        · rw [hx]
          show (mapMat P.arcsin (mapMat (fun v => v / P.pi / 4)
            (outer (Xray.updWl P Caller.energy s) q0))).head? = _
          rw [hw]
          exact theta_head P w0 ws q0
        · rw [hx]
  | wl =>
      obtain ⟨q0, qtl, w0, ws, hq, hw, hx⟩ :=
        update_ok_inv P Caller.wl s x (by decide) (by decide) h
      constructor
      · intro _
        refine ⟨q0, by rw [hq]; rfl, ?_⟩
        rw [hx]
      · intro _
        refine ⟨q0.map (fun y => P.arcsin (w0 * y / P.pi / 4)), ?_, ?_⟩
        · rw [hx]
          show (mapMat P.arcsin (mapMat (fun v => v / P.pi / 4)
            (outer (Xray.updWl P Caller.wl s) q0))).head? = _
          rw [hw]
          exact theta_head P w0 ws q0
        · rw [hx]
  | k =>
      obtain ⟨q0, qtl, w0, ws, hq, hw, hx⟩ :=
        update_ok_inv P Caller.k s x (by decide) (by decide) h
      constructor
      · intro _
        refine ⟨q0, by rw [hq]; rfl, ?_⟩
        rw [hx]
      · intro _
        refine ⟨q0.map (fun y => P.arcsin (w0 * y / P.pi / 4)), ?_, ?_⟩
        · rw [hx]
          show (mapMat P.arcsin (mapMat (fun v => v / P.pi / 4)
            (outer (Xray.updWl P Caller.k s) q0))).head? = _
          rw [hw]
          exact theta_head P w0 ws q0
        · rw [hx]

/-- C2 witness: the recomputation formulas instantiated at a successful
concrete `update_experiment` call with caller 'qz'. -/
theorem claim2_witness :
    Xray.update_experiment Pid Caller.qz s1cex = .ok s1cex ∧
    (Caller.qz ≠ Caller.theta → ∃ q0, s1cex.qz.head? = some q0 ∧
      s1cex.theta = mapMat Pid.arcsin
        (mapMat (fun v => v / Pid.pi / 4) (outer s1cex.wl q0))) :=
  ⟨update_qz_s1cex,
    (claim2_recompute_formulas Pid Caller.qz s1cex s1cex update_qz_s1cex).1⟩

lemma triad_result_invariant (P : Prims) (c : Caller) (s' x : Xray)
    (hc1 : c ≠ Caller.theta) (hc2 : c ≠ Caller.qz)
    (hEW : (Xray.updEnergy P c s').length = (Xray.updWl P c s').length)
    (hWK : (Xray.updWl P c s').length = (Xray.updK P c (Xray.updWl P c s') s').length)
    (h : Xray.update_experiment P c s' = .ok x) :
    (x.energy.length = x.wl.length ∧ x.wl.length = x.k.length) ∧
    x.theta.map List.length = x.qz.map List.length := by
  obtain ⟨q0, qtl, w0, ws, hq, hw, hx⟩ := update_ok_inv P c s' x hc1 hc2 h
  subst hx
  refine ⟨⟨hEW, hWK⟩, ?_⟩
  show (mapMat P.arcsin (mapMat (fun v => v / P.pi / 4)
      (outer (Xray.updWl P c s') q0))).map List.length
    = (outer ((Xray.updK P c (Xray.updWl P c s') s').map (fun v => 2 * v))
        ((q0.map (fun y => P.arcsin (w0 * y / P.pi / 4))).map P.sin)).map List.length
  simp only [map_length_mapMat, map_length_outer, List.length_map]
  rw [hWK]

lemma theta_tiled_shape (P : Prims) (s x : Xray) (row : List ℚ)
    (hlen : s.energy.length = s.wl.length ∧ s.wl.length = s.k.length)
    (h : Xray.update_experiment P Caller.theta
      { s with theta := List.replicate s.energy.length row } = .ok x) :
    (x.energy.length = x.wl.length ∧ x.wl.length = x.k.length) ∧
    x.theta.map List.length = x.qz.map List.length := by
  obtain ⟨t0, ts, ht, hx⟩ := update_theta_inv P _ x h
  subst hx
  refine ⟨⟨hlen.1, hlen.2⟩, ?_⟩
  have ht' : List.replicate s.energy.length row = t0 :: ts := ht
  have ht0 : t0 = row := by
    rcases hn : s.energy.length with _ | n
    · rw [hn] at ht'
      cases ht'
    · rw [hn, List.replicate_succ] at ht'
      injection ht' with h1 h2
      exact h1.symm
  show (List.replicate s.energy.length row).map List.length
    = (outer (s.k.map (fun v => 2 * v)) (t0.map P.sin)).map List.length
  rw [List.map_replicate, map_length_outer, List.length_map, List.length_map, ht0,
    hlen.1, hlen.2]

lemma qz_tiled_shape (P : Prims) (s x : Xray) (row : List ℚ)
    (hlen : s.energy.length = s.wl.length ∧ s.wl.length = s.k.length)
    (h : Xray.update_experiment P Caller.qz
      { s with qz := List.replicate s.energy.length row } = .ok x) :
    (x.energy.length = x.wl.length ∧ x.wl.length = x.k.length) ∧
    x.theta.map List.length = x.qz.map List.length := by
  obtain ⟨q0, qtl, hq, hx⟩ := update_qz_inv P _ x h
  subst hx
  refine ⟨⟨hlen.1, hlen.2⟩, ?_⟩
  have hq' : List.replicate s.energy.length row = q0 :: qtl := hq
  have hq0 : q0 = row := by
    rcases hn : s.energy.length with _ | n
    · rw [hn] at hq'
      cases hq'
    · rw [hn, List.replicate_succ] at hq'
      injection hq' with h1 h2
      exact h1.symm
  show (mapMat P.arcsin (mapMat (fun v => v / P.pi / 4) (outer s.wl q0))).map List.length
    = (List.replicate s.energy.length row).map List.length
  rw [List.map_replicate, map_length_mapMat, map_length_mapMat, map_length_outer, hq0,
    hlen.1]

/-- C1 (amended): after any single setter call that returns normally, where a
theta/qz input is at most 1-D and the triad arrays had equal lengths before
the call, the stored energy, wavelength and wavenumber arrays have equal
length and the stored theta and qz matrices have equal shape (equal row-length
lists).  The restriction to at most 1-D matrix inputs is forced by the
counterexample: a 2-D input whose row count differs from the energy count is
stored unvalidated and breaks the shape equality. -/
theorem claim1_amended (P : Prims) (s x : Xray) (call : SetterCall)
    (h1 : call.oneD)
    (hlen : s.energy.length = s.wl.length ∧ s.wl.length = s.k.length)
    (h : Xray.applySetter P s call = .ok x) :
    (x.energy.length = x.wl.length ∧ x.wl.length = x.k.length) ∧
    x.theta.map List.length = x.qz.map List.length := by
  cases call with
  | energy q =>
      simp only [Xray.applySetter] at h
      unfold Xray.setEnergy at h
      rcases hc : Quantity1.toUnit q uEV with _ | m
      · rw [hc] at h
        cases h
      · rw [hc] at h
        refine triad_result_invariant P Caller.energy _ x (by decide) (by decide) ?_ ?_ h
        · simp [Xray.updEnergy, Xray.updWl]
        · simp [Xray.updWl, Xray.updK]
  | wl q =>
      simp only [Xray.applySetter] at h
      unfold Xray.setWl at h
      refine triad_result_invariant P Caller.wl _ x (by decide) (by decide) ?_ ?_ h
      · simp [Xray.updEnergy, Xray.updWl]
      · simp [Xray.updWl, Xray.updK]
  | k q =>
      simp only [Xray.applySetter] at h
      unfold Xray.setK at h
      refine triad_result_invariant P Caller.k _ x (by decide) (by decide) ?_ ?_ h
      · simp [Xray.updEnergy, Xray.updWl]
      · simp [Xray.updWl, Xray.updK]
  | theta q =>
      simp only [Xray.applySetter] at h
      unfold Xray.setTheta at h
      rcases hm : q.mag with z | xs | m
      · rw [show ((q.toBaseUnits).ndmin1).tileTo s.energy.length
            = List.replicate s.energy.length [z * q.scale] from by
          simp [QuantityN.toBaseUnits, hm, NDArray.map, NDArray.ndmin1, Arr12.tileTo]] at h
        exact theta_tiled_shape P s x _ hlen h
      · rw [show ((q.toBaseUnits).ndmin1).tileTo s.energy.length
            = List.replicate s.energy.length (xs.map (fun v => v * q.scale)) from by
          simp [QuantityN.toBaseUnits, hm, NDArray.map, NDArray.ndmin1, Arr12.tileTo]] at h
        exact theta_tiled_shape P s x _ hlen h
      · simp [SetterCall.oneD, hm, NDArray.ndim] at h1
  | qz q =>
      simp only [Xray.applySetter] at h
      unfold Xray.setQz at h
      rcases hm : q.mag with z | xs | m
      · rw [show ((q.toBaseUnits).ndmin1).tileTo s.energy.length
            = List.replicate s.energy.length [z * q.scale] from by
          simp [QuantityN.toBaseUnits, hm, NDArray.map, NDArray.ndmin1, Arr12.tileTo]] at h
        exact qz_tiled_shape P s x _ hlen h
      · rw [show ((q.toBaseUnits).ndmin1).tileTo s.energy.length
            = List.replicate s.energy.length (xs.map (fun v => v * q.scale)) from by
          simp [QuantityN.toBaseUnits, hm, NDArray.map, NDArray.ndmin1, Arr12.tileTo]] at h
        exact qz_tiled_shape P s x _ hlen h
      · simp [SetterCall.oneD, hm, NDArray.ndim] at h1

/-- C1 counterexample: the claim fails without the 1-D restriction: from the
store `s1cex` (reached from `Xray.init` by setting the wavelength to 1 m),
feeding the 2-row matrix `qTwoRows` to the theta setter returns normally yet
leaves a 2×1 theta matrix next to a 1×1 qz matrix. -/
theorem claim1_counterexample :
    Xray.setWl Pid Xray.init qMeter = .ok s1cex ∧
    Xray.setTheta Pid s1cex qTwoRows = .ok s2cex ∧
    s2cex.theta.map List.length ≠ s2cex.qz.map List.length := by
  refine ⟨setWl_init_eval, ?_, by decide⟩
  simp [Xray.setTheta, Xray.update_experiment, Xray.updTriad, Xray.updEnergy, Xray.updWl,
    Xray.updK, Xray.updTheta, Xray.updQz, QuantityN.toBaseUnits, NDArray.map,
    NDArray.ndmin1, Arr12.tileTo, Pid, qTwoRows, s1cex, s2cex, outer, mapMat]

/-- C1 witness: a 1-D theta write from a store with matching triad lengths
keeps the invariant. -/
theorem claim1_witness :
    SetterCall.oneD (SetterCall.theta qRow) ∧
    (s1cex.energy.length = s1cex.wl.length ∧ s1cex.wl.length = s1cex.k.length) ∧
    Xray.applySetter Pid s1cex (SetterCall.theta qRow) = .ok s1cex ∧
    ((s1cex.energy.length = s1cex.wl.length ∧ s1cex.wl.length = s1cex.k.length) ∧
      s1cex.theta.map List.length = s1cex.qz.map List.length) := by
  have h1 : SetterCall.oneD (SetterCall.theta qRow) := by
    simp [SetterCall.oneD, qRow, NDArray.ndim]
  have hlen : s1cex.energy.length = s1cex.wl.length ∧ s1cex.wl.length = s1cex.k.length :=
    ⟨rfl, rfl⟩
  have happ : Xray.applySetter Pid s1cex (SetterCall.theta qRow) = .ok s1cex := by
    simp [Xray.applySetter, Xray.setTheta, Xray.update_experiment, Xray.updTriad,
      Xray.updEnergy, Xray.updWl, Xray.updK, Xray.updTheta, Xray.updQz,
      QuantityN.toBaseUnits, NDArray.map, NDArray.ndmin1, Arr12.tileTo, Pid, qRow,
      s1cex, outer, mapMat]
  exact ⟨h1, hlen, happ, claim1_amended Pid s1cex s1cex (SetterCall.theta qRow) h1 hlen happ⟩

/-- C8 (amended): no shape validation exists: a nonempty 2-D theta or qz
input is stored exactly as converted, whatever its row count — also when that
row count differs from the stored energy-sample count — and the setter
returns normally.  (The claimed shape-mismatch error is never raised; the
counterexample shows a mismatched 2-row input being stored from a 1-energy
store.) -/
theorem claim8_amended (P : Prims) (s : Xray) (q : QuantityN) (m : List (List ℚ))
    (hmag : q.mag = NDArray.two m) (hm : m ≠ []) :
    (∃ x, Xray.setTheta P s q = .ok x ∧
      x.theta = m.map (List.map (fun v => v * q.scale))) ∧
    (∃ x, Xray.setQz P s q = .ok x ∧
      x.qz = m.map (List.map (fun v => v * q.scale))) := by
  obtain ⟨r, rs, hrs⟩ := List.exists_cons_of_ne_nil hm
  have htile : ((q.toBaseUnits).ndmin1).tileTo s.energy.length
      = m.map (List.map (fun v => v * q.scale)) := by
    simp [QuantityN.toBaseUnits, hmag, NDArray.map, NDArray.ndmin1, Arr12.tileTo]
  have hcons : m.map (List.map (fun v => v * q.scale))
      = (r.map (fun v => v * q.scale)) :: rs.map (List.map (fun v => v * q.scale)) := by
    rw [hrs]
    rfl
  constructor
  · refine ⟨{ s with
        theta := m.map (List.map (fun v => v * q.scale))
        qz := outer (s.k.map (fun x => 2 * x))
          ((r.map (fun v => v * q.scale)).map P.sin) }, ?_, rfl⟩
    unfold Xray.setTheta
    rw [htile]
    exact update_theta_cons P _ (r.map (fun v => v * q.scale))
      (rs.map (List.map (fun v => v * q.scale))) hcons
  · refine ⟨{ s with
        qz := m.map (List.map (fun v => v * q.scale))
        theta := mapMat P.arcsin (mapMat (fun x => x / P.pi / 4)
          (outer s.wl (r.map (fun v => v * q.scale)))) }, ?_, rfl⟩
    unfold Xray.setQz
    rw [htile]
    exact update_qz_cons P _ (r.map (fun v => v * q.scale))
      (rs.map (List.map (fun v => v * q.scale))) hcons

/-- C8 counterexample: from the store `s1cex` (one stored energy sample,
reached from `Xray.init` by a wavelength write), the qz setter fed the 2-row
matrix `qTwoRowsQz` — whose row count 2 differs from the energy count 1 —
returns normally and stores the matrix unchanged: no conversion/validation
error is signalled. -/
theorem claim8_counterexample :
    Xray.setWl Pid Xray.init qMeter = .ok s1cex ∧
    Xray.setQz Pid s1cex qTwoRowsQz = .ok s3cex ∧
    s3cex.qz = [[0], [0]] ∧
    s3cex.qz.length ≠ s1cex.energy.length := by
  refine ⟨setWl_init_eval, ?_, rfl, by decide⟩
  simp [Xray.setQz, Xray.update_experiment, Xray.updTriad, Xray.updEnergy, Xray.updWl,
    Xray.updK, Xray.updTheta, Xray.updQz, QuantityN.toBaseUnits, NDArray.map,
    NDArray.ndmin1, Arr12.tileTo, Pid, qTwoRowsQz, s1cex, s3cex, outer, mapMat]

/-- C8 witness: a nonempty 2-D theta input is always stored as converted and
the setter returns normally. -/
theorem claim8_witness :
    qTwoRows.mag = NDArray.two [[0], [0]] ∧ ([[0], [0]] : List (List ℚ)) ≠ [] ∧
    (∃ x, Xray.setTheta Pid Xray.init qTwoRows = .ok x ∧
      x.theta = [[0], [0]].map (List.map (fun v => v * qTwoRows.scale))) :=
  ⟨rfl, by decide,
    (claim8_amended Pid Xray.init qTwoRows [[0], [0]] rfl (by decide)).1⟩

lemma wlGet_toBase (t : Xray) : (Xray.wlGet t).toBaseUnits.ndmin1 = t.wl := by
  show ((t.wl.map (fun w => w * (uM.scale / uNM.scale))).map (fun x => x * uNM.scale)) = t.wl
  rw [List.map_map]
  refine map_id_of_eq _ (fun w => ?_) _
  show w * (uM.scale / uNM.scale) * uNM.scale = w
  norm_num [uM, uNM]
  ring

lemma setWl_self (P : Prims) (t : Xray) (w0 : ℚ) (ws : List ℚ) (hw : t.wl = w0 :: ws)
    (q0 : List ℚ) (qtl : List (List ℚ)) (hq : t.qz = q0 :: qtl) :
    Xray.setWl P t (Xray.wlGet t) =
      .ok { energy := t.wl.map (fun w => hPlanck * cLight / w / eCharge)
            wl := t.wl
            k := t.wl.map (fun w => 2 * P.pi / w)
            theta := mapMat P.arcsin (mapMat (fun v => v / P.pi / 4) (outer t.wl q0))
            qz := outer ((t.wl.map (fun w => 2 * P.pi / w)).map (fun v => 2 * v))
              ((q0.map (fun y => P.arcsin (w0 * y / P.pi / 4))).map P.sin)
            pol_in_state := t.pol_in_state
            pol_out_state := t.pol_out_state } := by
  have ht : ({ t with wl := (Xray.wlGet t).toBaseUnits.ndmin1 } : Xray) = t := by
    rw [wlGet_toBase]
  unfold Xray.setWl
  rw [ht]
  rw [update_ewk_cons P Caller.wl t (by decide) (by decide) q0 qtl hq w0 ws (by exact hw)]
  rfl

/-- C3: set the energy to a positive value E (in eV), read back the
wavelength getter, feed the read value to the wavelength setter: the stored
energy is again exactly `[E]`.  Exact rational arithmetic, so the claim's
floating-point tolerance is met with equality. -/
theorem claim3_energy_wl_roundtrip (P : Prims) (s : Xray) (E : ℚ) (hE : 0 < E)
    (hqz : s.qz ≠ []) :
    ∃ s1 s2, Xray.setEnergy P s ⟨Dim.energy, eCharge, Arr1.scalar E⟩ = .ok s1 ∧
      Xray.setWl P s1 (Xray.wlGet s1) = .ok s2 ∧ s2.energy = [E] := by
  obtain ⟨q0, qtl, hq⟩ := List.exists_cons_of_ne_nil hqz
  have hEne : E ≠ 0 := ne_of_gt hE
  have hhc : hPlanck * cLight ≠ 0 := by norm_num [hPlanck, cLight]
  have hec : eCharge ≠ 0 := by norm_num [eCharge]
  have hconv : Quantity1.toUnit ⟨Dim.energy, eCharge, Arr1.scalar E⟩ uEV
      = some (Arr1.scalar E) := by
    simp [Quantity1.toUnit, uEV, Arr1.map, div_self hec]
  have hA : Xray.setEnergy P s ⟨Dim.energy, eCharge, Arr1.scalar E⟩
      = .ok (energyStep P s E q0) := by
    unfold Xray.setEnergy
    rw [hconv]
    exact update_ewk_cons P Caller.energy { s with energy := [E] } (by decide) (by decide)
      q0 qtl (by exact hq) (hPlanck * cLight / (E * eCharge)) [] rfl
  have hwl : (energyStep P s E q0).wl = (hPlanck * cLight / (E * eCharge)) :: [] := rfl
  have hqz1 : (energyStep P s E q0).qz =
      (((q0.map (fun y =>
          P.arcsin (hPlanck * cLight / (E * eCharge) * y / P.pi / 4))).map P.sin).map
        (fun y => 2 * (2 * P.pi / (hPlanck * cLight / (E * eCharge))) * y)) :: [] := rfl
  have hB := setWl_self P (energyStep P s E q0) _ [] hwl _ [] hqz1
  have hC : (energyStep P s E q0).wl.map (fun w => hPlanck * cLight / w / eCharge)
      = [E] := by
    show [hPlanck * cLight / (hPlanck * cLight / (E * eCharge)) / eCharge] = [E]
    have harith : hPlanck * cLight / (hPlanck * cLight / (E * eCharge)) / eCharge = E := by
      field_simp
    rw [harith]
  exact ⟨_, _, hA, hB, hC⟩

/-- C3 witness: the round trip instantiated at the initial store with
E = 3 eV. -/
theorem claim3_witness :
    (0 : ℚ) < 3 ∧ Xray.init.qz ≠ [] ∧
    (∃ s1 s2, Xray.setEnergy Pid Xray.init ⟨Dim.energy, eCharge, Arr1.scalar 3⟩ = .ok s1 ∧
      Xray.setWl Pid s1 (Xray.wlGet s1) = .ok s2 ∧ s2.energy = [3]) := by
  have h1 : (0 : ℚ) < 3 := by norm_num
  have h2 : Xray.init.qz ≠ [] := by decide
  exact ⟨h1, h2, claim3_energy_wl_roundtrip Pid Xray.init 3 h1 h2⟩

lemma update_triad_idem (P : Prims) (c : Caller) (s x : Xray)
    (hc1 : c ≠ Caller.theta) (hc2 : c ≠ Caller.qz)
    (hlaw : ∀ y, P.sin (P.arcsin y) = y) (hpi : P.pi ≠ 0)
    (w0 : ℚ) (ws : List ℚ) (hw : Xray.updWl P c s = w0 :: ws)
    (q0 : List ℚ) (k0 : ℚ) (ktl : List ℚ)
    (hK : Xray.updK P c (Xray.updWl P c s) s = k0 :: ktl)
    (hwk : k0 * w0 = 2 * P.pi)
    (hx : x = { energy := Xray.updEnergy P c s
                wl := Xray.updWl P c s
                k := Xray.updK P c (Xray.updWl P c s) s
                theta := mapMat P.arcsin (mapMat (fun v => v / P.pi / 4)
                  (outer (Xray.updWl P c s) q0))
                qz := outer ((Xray.updK P c (Xray.updWl P c s) s).map (fun v => 2 * v))
                  ((q0.map (fun y => P.arcsin (w0 * y / P.pi / 4))).map P.sin)
                pol_in_state := s.pol_in_state
                pol_out_state := s.pol_out_state })
    (hEx : Xray.updEnergy P c x = Xray.updEnergy P c s)
    (hWx : Xray.updWl P c x = Xray.updWl P c s)
    (hKx : Xray.updK P c (Xray.updWl P c x) x = Xray.updK P c (Xray.updWl P c s) s) :
    Xray.update_experiment P c x = .ok x := by
  have hrow := qz_row0_roundtrip P hlaw hpi w0 k0 hwk q0
  have hq0 : x.qz = outer ((Xray.updK P c (Xray.updWl P c s) s).map (fun v => 2 * v))
      ((q0.map (fun y => P.arcsin (w0 * y / P.pi / 4))).map P.sin) := by
    rw [hx]
  have hqx : x.qz = q0 :: outer (ktl.map (fun v => 2 * v))
      ((q0.map (fun y => P.arcsin (w0 * y / P.pi / 4))).map P.sin) := by
    rw [hq0, hK]
    simp only [List.map_cons, outer_cons]
    rw [hrow]
  rw [update_ewk_cons P c x hc1 hc2 q0 _ hqx w0 ws (by rw [hWx]; exact hw)]
  rw [hKx, hWx, hEx, hx]

/-- C6: calling `update_experiment` twice in a row with the same caller and
no intervening writes leaves all five stored fields identical to their values
after the first call.  Well-formed state: the triad arrays hold nonzero
leading samples; well-formed primitives: `sin (arcsin y) = y` and `π ≠ 0`. -/
theorem claim6_update_idempotent (P : Prims) (c : Caller) (s x : Xray)
    (hlaw : ∀ y, P.sin (P.arcsin y) = y) (hpi : P.pi ≠ 0)
    (hwf : s.WellFormed)
    (h : Xray.update_experiment P c s = .ok x) :
    Xray.update_experiment P c x = .ok x := by
  obtain ⟨hwfE, hwfW, hwfK⟩ := hwf
  have hhc : hPlanck * cLight ≠ 0 := by norm_num [hPlanck, cLight]
  have hec : eCharge ≠ 0 := by norm_num [eCharge]
  cases c with
  | theta =>
      obtain ⟨t0, ts, ht, hx⟩ := update_theta_inv P s x h
      subst hx
      rw [update_theta_cons P _ t0 ts (by exact ht)]
  | qz =>
      obtain ⟨q0, qtl, hq, hx⟩ := update_qz_inv P s x h
      subst hx
      rw [update_qz_cons P _ q0 qtl (by exact hq)]
  | energy =>
      obtain ⟨q0, qtl, w0, ws, hq, hw, hx⟩ :=
        update_ok_inv P Caller.energy s x (by decide) (by decide) h
      obtain ⟨e0, es, hE⟩ : ∃ e0 es, s.energy = e0 :: es := by
        rcases hsE : s.energy with _ | ⟨e0, es⟩
        · rw [hsE] at hwfE
          exact absurd rfl hwfE
        · exact ⟨e0, es, rfl⟩
      have he0 : e0 ≠ 0 := by
        rw [hE] at hwfE
        simpa using hwfE
      have hw2 : s.energy.map (fun e => hPlanck * cLight / (e * eCharge)) = w0 :: ws := hw
      rw [hE, List.map_cons] at hw2
      injection hw2 with hw0 hws
      have hw0ne : w0 ≠ 0 := by
        rw [← hw0]
        exact div_ne_zero hhc (mul_ne_zero he0 hec)
      have hK : Xray.updK P Caller.energy (Xray.updWl P Caller.energy s) s
          = (2 * P.pi / w0) :: ws.map (fun w => 2 * P.pi / w) := by
        have hdef : Xray.updK P Caller.energy (Xray.updWl P Caller.energy s) s
            = (Xray.updWl P Caller.energy s).map (fun w => 2 * P.pi / w) := rfl
        rw [hdef, hw, List.map_cons]
      have hwk : (2 * P.pi / w0) * w0 = 2 * P.pi := div_mul_cancel₀ _ hw0ne
      exact update_triad_idem P Caller.energy s x (by decide) (by decide) hlaw hpi
        w0 ws hw q0 _ _ hK hwk hx (by rw [hx]; rfl) (by rw [hx]; rfl) (by rw [hx]; rfl)
  | wl =>
      obtain ⟨q0, qtl, w0, ws, hq, hw, hx⟩ :=
        update_ok_inv P Caller.wl s x (by decide) (by decide) h
      have hwW : s.wl = w0 :: ws := hw
      have hw0ne : w0 ≠ 0 := by
        rw [hwW] at hwfW
        simpa using hwfW
      have hK : Xray.updK P Caller.wl (Xray.updWl P Caller.wl s) s
          = (2 * P.pi / w0) :: ws.map (fun w => 2 * P.pi / w) := by
        have hdef : Xray.updK P Caller.wl (Xray.updWl P Caller.wl s) s
            = (Xray.updWl P Caller.wl s).map (fun w => 2 * P.pi / w) := rfl
        rw [hdef, hw, List.map_cons]
      have hwk : (2 * P.pi / w0) * w0 = 2 * P.pi := div_mul_cancel₀ _ hw0ne
      exact update_triad_idem P Caller.wl s x (by decide) (by decide) hlaw hpi
        w0 ws hw q0 _ _ hK hwk hx (by rw [hx]; rfl) (by rw [hx]; rfl) (by rw [hx]; rfl)
  | k =>
      obtain ⟨q0, qtl, w0, ws, hq, hw, hx⟩ :=
        update_ok_inv P Caller.k s x (by decide) (by decide) h
      have hwK : s.k.map (fun v => 2 * P.pi / v) = w0 :: ws := hw
      obtain ⟨k0, ks, hks⟩ : ∃ k0 ks, s.k = k0 :: ks := by
        rcases hsk : s.k with _ | ⟨k0, ks⟩
        · rw [hsk] at hwK
          cases hwK
        · exact ⟨k0, ks, rfl⟩
      rw [hks, List.map_cons] at hwK
      injection hwK with hw0 hws
      have hk0 : k0 ≠ 0 := by
        rw [hks] at hwfK
        simpa using hwfK
      have hK : Xray.updK P Caller.k (Xray.updWl P Caller.k s) s = k0 :: ks := by
        have hdef : Xray.updK P Caller.k (Xray.updWl P Caller.k s) s = s.k := rfl
        rw [hdef, hks]
      have hwk : k0 * w0 = 2 * P.pi := by
        rw [← hw0, mul_comm]
        exact div_mul_cancel₀ _ hk0
      exact update_triad_idem P Caller.k s x (by decide) (by decide) hlaw hpi
        w0 ws hw q0 _ _ hK hwk hx (by rw [hx]; rfl) (by rw [hx]; rfl) (by rw [hx]; rfl)

/-- C6 witness: a concrete successful `update_experiment` call repeated with
identity primitives. -/
theorem claim6_witness :
    (∀ y, Pid.sin (Pid.arcsin y) = y) ∧ Pid.pi ≠ 0 ∧ s1cex.WellFormed ∧
    Xray.update_experiment Pid Caller.theta s1cex = .ok s1cex := by
  have hlaw : ∀ y, Pid.sin (Pid.arcsin y) = y := fun y => rfl
  have hpi : Pid.pi ≠ 0 := by norm_num [Pid]
  have hwf : s1cex.WellFormed := by
    refine ⟨?_, ?_, ?_⟩ <;>
      norm_num [s1cex, Xray.WellFormed, List.headI, hPlanck, cLight, eCharge]
  exact ⟨hlaw, hpi, hwf,
    claim6_update_idempotent Pid Caller.theta s1cex s1cex hlaw hpi hwf update_theta_s1cex⟩
